import Mathlib

/-!
Verification of the VMA archive extractor (`src/vmax.py`).

The extractor is embedded shallowly: the archive stream is a `List Nat` of
byte values together with a cursor position, a `read(n)` call returns up to
`n` bytes and advances the cursor by the number of bytes actually returned
(exactly Python's file semantics at end of file), and the per-block-info
cluster reconstruction, task submission and worker-pool write-back are
translated function by function from the source.
-/

set_option maxRecDepth 4000

/-- Python `fo.read(n)` / `fo.readinto` on a regular file: return up to `n`
bytes starting at `pos` and advance the cursor by the number of bytes
actually obtained (fewer than `n` only at end of file). -/
def readN (data : List Nat) (pos n : Nat) : List Nat × Nat :=
  let chunk := (data.drop pos).take n
  (chunk, pos + chunk.length)

/-- Python `int.from_bytes(bs, 'big')`. -/
def fromBytesBE (bs : List Nat) : Nat := bs.foldl (fun a b => a * 256 + b) 0

/-- Python `int.from_bytes(bs, 'little')`. -/
def fromBytesLE (bs : List Nat) : Nat := bs.foldr (fun b a => a * 256 + b) 0

/-- `Blockinfo.CLUSTER_SIZE` in the source. -/
def CLUSTER_SIZE : Nat := 65536

/-- One block-info record (class `Blockinfo`): 2-byte big-endian mask, one
skipped byte, 1-byte device id, 4-byte big-endian cluster number. -/
structure Blockinfo where
  mask : Nat
  dev_id : Nat
  cluster_num : Nat
deriving DecidableEq

/-- `ZERO_CLUSTER = b'\0' * Blockinfo.CLUSTER_SIZE` (line 125). -/
def ZERO_CLUSTER : List Nat := List.replicate CLUSTER_SIZE 0

/-- Truth value of Python `(mask >> i) & 1` (line 157). -/
def maskBit (mask i : Nat) : Bool := (mask >>> i) &&& 1 == 1

/-- The partial-mask loop of `extract` (lines 156-159): for each index `i`
drawn from `range(16)` in order, when bit `i` of the mask is set, read up
to 4096 bytes and splice them over `buf[i*4096:(i+1)*4096]` (Python slice
assignment: the slice is replaced by the chunk, shrinking the buffer when
the chunk is short). -/
def maskLoop (data : List Nat) (mask : Nat) :
    List Nat → List Nat × Nat → List Nat × Nat
  | [], st => st
  | i :: rest, (buf, pos) =>
    if maskBit mask i then
      let r := readN data pos 4096
      maskLoop data mask rest
        (buf.take (i * 4096) ++ r.1 ++ buf.drop ((i + 1) * 4096), r.2)
    else
      maskLoop data mask rest (buf, pos)

/-- Cluster reconstruction for one block-info (lines 149-160).  Returns the
cluster handed to the write task, the new stream position and the new
contents of the reused shared buffer `cluster_buf`.  The full-mask branch
is `fo.readinto(cluster_buf)`: bytes past end of file leave the previous
contents of `cluster_buf` in place. -/
def reconstructCluster (data : List Nat) (pos : Nat) (cluster_buf : List Nat)
    (mask : Nat) : List Nat × Nat × List Nat :=
  if mask = 0xFFFF then
    let r := readN data pos CLUSTER_SIZE
    let buf := r.1 ++ cluster_buf.drop r.1.length
    (buf, r.2, buf)
  else if mask = 0 then
    (ZERO_CLUSTER, pos, cluster_buf)
  else
    let r := maskLoop data mask (List.range 16) (List.replicate CLUSTER_SIZE 0, pos)
    (r.1, r.2, cluster_buf)

/-- A task submitted to the executor: `executor.submit(write_cluster,
info.dev_id, pos, data)` (line 162). -/
structure WriteTask where
  dev_id : Nat
  pos : Nat
  data : List Nat
deriving DecidableEq

/-- The body of the `for info in extent.blockinfo` loop (lines 144-162) for
one record: device id 0 is skipped, otherwise the cluster is rebuilt and a
write task at byte offset `cluster_num * CLUSTER_SIZE` is appended.  The
state is (stream position, contents of the reused `cluster_buf`, submitted
tasks). -/
def processInfo (archive : List Nat) (st : Nat × List Nat × List WriteTask)
    (info : Blockinfo) : Nat × List Nat × List WriteTask :=
  if info.dev_id = 0 then st
  else
    let r := reconstructCluster archive st.1 st.2.1 info.mask
    (r.2.1, r.2.2,
      st.2.2 ++ [⟨info.dev_id, info.cluster_num * CLUSTER_SIZE, r.1⟩])

/-- The whole block-info loop of one extent. -/
def processBlockinfos (archive : List Nat) (st : Nat × List Nat × List WriteTask)
    (infos : List Blockinfo) : Nat × List Nat × List WriteTask :=
  infos.foldl (processInfo archive) st

/-- Fatal conditions of the run (the source raises `AssertionError` /
`KeyError`; the names below record which check fired). -/
inductive ExtractError where
  | badMagic
  | integrityError
  | identityMismatch
  | keyError
deriving DecidableEq

/-- Effect of `f.seek(pos); f.write(data)` on a device file modelled as a
total byte map. -/
def writeAt (file : Nat → Nat) (pos : Nat) (data : List Nat) : Nat → Nat :=
  fun off =>
    if pos ≤ off ∧ off < pos + data.length then data.getD (off - pos) 0
    else file off

/-- `write_cluster` (lines 128-132) as executed by a worker: looking up
`locks[dev_id]` for a device that was never opened raises `KeyError` before
any byte is written; otherwise the cluster is written at `pos` in that
device's file.  `opened` is the key set of `device_outs`/`locks`. -/
def write_cluster (opened : Nat → Bool) (st : Nat → Nat → Nat)
    (t : WriteTask) : Except ExtractError (Nat → Nat → Nat) :=
  if opened t.dev_id then
    Except.ok (fun d => if d = t.dev_id then writeAt (st d) t.pos t.data else st d)
  else
    Except.error ExtractError.keyError

/-- One executor task: a raised exception is stored in the future and, as
no future is ever inspected, it leaves every file untouched. -/
def applyTask (opened : Nat → Bool) (st : Nat → Nat → Nat)
    (t : WriteTask) : Nat → Nat → Nat :=
  match write_cluster opened st t with
  | Except.ok st' => st'
  | Except.error _ => st

/-- Executing a batch of submitted tasks in some serialization order. -/
def runTasks (opened : Nat → Bool) (st : Nat → Nat → Nat)
    (l : List WriteTask) : Nat → Nat → Nat :=
  l.foldl (applyTask opened) st

/-- `device_outs` / `locks` hold exactly the device indices whose declared
size is positive (lines 118-123). -/
structure VmaDeviceInfoHeader where
  device_name : Nat
  device_size : Nat
deriving DecidableEq

/-- Key set of `device_outs`: device index opened iff its descriptor exists
and declares a positive size. -/
def openedDevices (devs : List VmaDeviceInfoHeader) (idx : Nat) : Bool :=
  match devs.get? idx with
  | some d => decide (0 < d.device_size)
  | none => false

/-- Number of mask bits set at positions strictly below `i`: the partial
loop has consumed one 4096-byte chunk for each of them before it reaches
sub-block `i`. -/
def bitsBelow (mask i : Nat) : Nat :=
  (List.range i).countP (fun j => maskBit mask j)

/-- Companion of `maskLoop` on the cluster viewed as 16 sub-block segments:
each set bit replaces its segment with the next full 4096-byte chunk. -/
def updSegs (data : List Nat) (mask : Nat) :
    List Nat → List (List Nat) → Nat → List (List Nat) × Nat
  | [], segs, pos => (segs, pos)
  | i :: rest, segs, pos =>
    if maskBit mask i then
      updSegs data mask rest (segs.set i ((data.drop pos).take 4096)) (pos + 4096)
    else
      updSegs data mask rest segs pos

/-- The magic bytes `b'VMAE'` of an extent header (line 61). -/
def vmaeMagic : List Nat := [0x56, 0x4D, 0x41, 0x45]

/-- One blob record (class `Blob`, lines 80-83): 2-byte little-endian
length, then that many raw bytes. -/
structure Blob where
  size : Nat
  data : List Nat
deriving DecidableEq

/-- `Blob.__init__`: read the length, then the payload. -/
def parseBlob (file : List Nat) (pos : Nat) : Blob × Nat :=
  let r1 := readN file pos 2
  let size := fromBytesLE r1.1
  let r2 := readN file r1.2 size
  (⟨size, r2.1⟩, r2.2)

/-- The blob-table loop of `VmaHeader.__init__` (lines 28-32): keep reading
records while the cursor is before `blob_buffer_offset + blob_buffer_size`;
each record is keyed by its start offset relative to the region base.
`fuel` bounds the number of iterations (the Python loop does not terminate
when the cursor stops advancing at end of file; the claims below concern
runs where it does). -/
def parseBlobLoop (file : List Nat) (blobOffset endPos : Nat) :
    Nat → Nat → List (Nat × Blob) × Nat
  | 0, pos => ([], pos)
  | fuel + 1, pos =>
    if pos < endPos then
      let r := parseBlob file pos
      let rest := parseBlobLoop file blobOffset endPos fuel r.2
      ((pos - blobOffset, r.1) :: rest.1, rest.2)
    else ([], pos)

/-- `Blockinfo.__init__` (lines 87-91): 2-byte big-endian mask, 1-byte
skip, 1-byte device id, 4-byte big-endian cluster number. -/
def parseBlockinfo (file : List Nat) (pos : Nat) : Blockinfo × Nat :=
  let r1 := readN file pos 2
  let p2 := r1.2 + 1
  let r2 := readN file p2 1
  let r3 := readN file r2.2 4
  (⟨fromBytesBE r1.1, fromBytesBE r2.1, fromBytesBE r3.1⟩, r3.2)

/-- `[Blockinfo(fo) for _ in range(n)]` (line 66). -/
def parseBlockinfos (file : List Nat) : Nat → Nat → List Blockinfo × Nat
  | 0, pos => ([], pos)
  | n + 1, pos =>
    let r := parseBlockinfo file pos
    let rest := parseBlockinfos file n r.2
    (r.1 :: rest.1, rest.2)

/-- Parsed extent header (class `VmaExtentHeader`). -/
structure VmaExtentHeader where
  start : Nat
  block_count : Nat
  uuid : List Nat
  md5sum : List Nat
  blockinfo : List Blockinfo
  end_pos : Nat
  generated_md5sum : Option (List Nat)
deriving DecidableEq

/-- `VmaExtentHeader._gen_md5sum` (lines 70-78): digest of the extent's own
byte span with the checksum field `[24,40)` zeroed.  `md5` abstracts
`hashlib.md5(...).digest()`. -/
def extentGenMd5 (md5 : List Nat → List Nat) (file : List Nat)
    (start end_pos : Nat) : List Nat :=
  let data := (file.drop start).take (end_pos - start)
  md5 (data.take 24 ++ List.replicate 16 0 ++ data.drop 40)

/-- `VmaExtentHeader.__init__` (lines 57-68): magic `b'VMAE'` (a mismatch
raises), 2-byte skip, 2-byte big-endian block count, 16-byte UUID, 16-byte
checksum, then always exactly 59 block-info records; the self-checksum is
generated unless `skip_hash`. -/
def parseExtentHeader (md5 : List Nat → List Nat) (file : List Nat)
    (skip_hash : Bool) (pos : Nat) :
    Except ExtractError (VmaExtentHeader × Nat) :=
  let r0 := readN file pos 4
  if r0.1 = vmaeMagic then
    let p1 := r0.2 + 2
    let r1 := readN file p1 2
    let r2 := readN file r1.2 16
    let r3 := readN file r2.2 16
    let r4 := parseBlockinfos file 59 r3.2
    Except.ok
      (⟨pos, fromBytesBE r1.1, r2.1, r3.1, r4.1, r4.2,
        if skip_hash then none else some (extentGenMd5 md5 file pos r4.2)⟩, r4.2)
  else Except.error ExtractError.badMagic

/-- One iteration of the `while fo.tell() < total` loop of `extract`
(lines 138-162): parse the extent, compare its UUID with the header UUID
(line 140, before any block-info is visited), compare its checksum unless
skipped (lines 141-142), then run the block-info loop. -/
def processExtent (md5 : List Nat → List Nat) (archive : List Nat)
    (header_uuid : List Nat) (skip_hash : Bool)
    (st : Nat × List Nat × List WriteTask) :
    Except ExtractError (Nat × List Nat × List WriteTask) :=
  match parseExtentHeader md5 archive skip_hash st.1 with
  | Except.error e => Except.error e
  | Except.ok (extent, pos') =>
    if header_uuid = extent.uuid then
      match extent.generated_md5sum with
      | some g =>
        if extent.md5sum = g then
          Except.ok (processBlockinfos archive (pos', st.2.1, st.2.2) extent.blockinfo)
        else Except.error ExtractError.integrityError
      | none =>
        Except.ok (processBlockinfos archive (pos', st.2.1, st.2.2) extent.blockinfo)
    else Except.error ExtractError.identityMismatch

/-- `VmaHeader._gen_md5sum` (lines 36-44): digest over the first
`header_size` file bytes with the checksum field `[32,48)` zeroed. -/
def headerGenMd5 (md5 : List Nat → List Nat) (file : List Nat)
    (header_size : Nat) : List Nat :=
  let data := file.take header_size
  md5 (data.take 32 ++ List.replicate 16 0 ++ data.drop 48)

/-- The header checksum protocol: line 34 (`None if skip_hash else
self._gen_md5sum(fo)`) combined with the check in `extract` (lines 110-111,
`assert header.md5sum == header.generated_md5sum`). -/
def headerHashCheck (md5 : List Nat → List Nat) (file : List Nat)
    (header_size : Nat) (md5sum : List Nat) (skip_hash : Bool) :
    Except ExtractError Unit :=
  match (if skip_hash then none else some (headerGenMd5 md5 file header_size) :
      Option (List Nat)) with
  | some g =>
    if md5sum = g then Except.ok () else Except.error ExtractError.integrityError
  | none => Except.ok ()

/-- The specification's description of the digested copy, byte by byte:
byte `k` of the first `header_size` file bytes, except that bytes
`[32,48)` are zero. -/
def specZeroedHeader (file : List Nat) (header_size : Nat) : List Nat :=
  (List.range header_size).map fun k =>
    if 32 ≤ k ∧ k < 48 then 0 else file.getD k 0

/-- Splicing `chunk` over byte range `[i*4096, (i+1)*4096)` of a cluster
made of 4096-byte segments replaces segment `i`. -/
theorem flatten_slice_update :
    ∀ (segs : List (List Nat)) (i : Nat) (chunk : List Nat),
      (∀ s ∈ segs, s.length = 4096) →
      segs.flatten.take (i * 4096) ++ chunk ++ segs.flatten.drop ((i + 1) * 4096)
        = (segs.take i ++ chunk :: segs.drop (i + 1)).flatten
  | [], i, chunk, _ => by simp
  | s :: rest, 0, chunk, h => by
    have hs : s.length = 4096 := h s (List.mem_cons_self s rest)
    have h1 : (0 + 1) * 4096 = s.length + 0 := by rw [hs]
    simp only [List.flatten_cons, List.take_zero, List.nil_append, h1,
      List.drop_append, List.drop_zero]
    simp
  | s :: rest, i + 1, chunk, h => by
    have hs : s.length = 4096 := h s (List.mem_cons_self s rest)
    have h1 : (i + 1) * 4096 = s.length + i * 4096 := by rw [hs]; ring
    have h2 : (i + 1 + 1) * 4096 = s.length + (i + 1) * 4096 := by rw [hs]; ring
    have ih := flatten_slice_update rest i chunk
      (fun t ht => h t (List.mem_cons_of_mem s ht))
    simp only [List.flatten_cons, h1, List.take_append, h2, List.drop_append,
      List.take_succ_cons, List.drop_succ_cons, List.cons_append,
      List.append_assoc] at ih ⊢
    rw [ih]

/-- The flat-buffer partial-mask loop agrees with its segment-wise
companion as long as every read is complete. -/
theorem maskLoop_eq_updSegs (data : List Nat) (mask : Nat) :
    ∀ (l : List Nat) (segs : List (List Nat)) (pos : Nat),
      (∀ s ∈ segs, s.length = 4096) →
      (∀ i ∈ l, i < segs.length) →
      pos + 4096 * l.countP (fun j => maskBit mask j) ≤ data.length →
      maskLoop data mask l (segs.flatten, pos) =
        ((updSegs data mask l segs pos).1.flatten,
          (updSegs data mask l segs pos).2)
  | [], _, _, _, _, _ => rfl
  | i :: rest, segs, pos, hseg, hidx, havail => by
    have hi : i < segs.length := hidx i (List.mem_cons_self i rest)
    by_cases hb : maskBit mask i
    · have hcount : (i :: rest).countP (fun j => maskBit mask j)
          = rest.countP (fun j => maskBit mask j) + 1 := by
        simp [List.countP_cons, hb]
      rw [hcount] at havail
      have hchunk : ((data.drop pos).take 4096).length = 4096 := by
        rw [List.length_take, List.length_drop]; omega
      have hseg' : ∀ s ∈ segs.set i ((data.drop pos).take 4096), s.length = 4096 := by
        intro s hsm
        rcases List.mem_or_eq_of_mem_set hsm with hin | hrfl
        · exact hseg s hin
        · rw [hrfl]; exact hchunk
      have hidx' : ∀ j ∈ rest, j < (segs.set i ((data.drop pos).take 4096)).length := by
        intro j hj
        rw [List.length_set]
        exact hidx j (List.mem_cons_of_mem i hj)
      have havail' : pos + 4096 + 4096 * rest.countP (fun j => maskBit mask j)
          ≤ data.length := by omega
      have ih := maskLoop_eq_updSegs data mask rest
        (segs.set i ((data.drop pos).take 4096)) (pos + 4096) hseg' hidx' havail'
      rw [List.set_eq_take_cons_drop _ hi] at ih
      simp only [maskLoop, hb, if_pos, readN, hchunk, updSegs]
      rw [flatten_slice_update segs i ((data.drop pos).take 4096) hseg]
      rw [List.set_eq_take_cons_drop _ hi]
      exact ih
    · have hcount : (i :: rest).countP (fun j => maskBit mask j)
          = rest.countP (fun j => maskBit mask j) := by
        simp [List.countP_cons, hb]
      rw [hcount] at havail
      have ih := maskLoop_eq_updSegs data mask rest segs pos hseg
        (fun j hj => hidx j (List.mem_cons_of_mem i hj)) havail
      simp only [maskLoop, hb, if_neg, updSegs]
      exact ih

/-- Closed form of `updSegs` on a contiguous index range: the final stream
position advances by 4096 bytes per set bit, and segment `k` holds the
chunk read after `countP` earlier set bits, while untouched segments keep
their initial contents. -/
theorem updSegs_range' (data : List Nat) (mask : Nat) :
    ∀ (n j : Nat) (segs : List (List Nat)) (pos : Nat),
      j + n ≤ segs.length →
      (updSegs data mask (List.range' j n) segs pos).2
          = pos + 4096 * (List.range' j n).countP (fun i => maskBit mask i) ∧
      ∀ k, (updSegs data mask (List.range' j n) segs pos).1.get? k
          = if j ≤ k ∧ k < j + n ∧ maskBit mask k then
              some ((data.drop
                (pos + 4096 * (List.range' j (k - j)).countP (fun i => maskBit mask i))).take 4096)
            else segs.get? k
  | 0, j, segs, pos, _ => by
    refine ⟨by simp [updSegs], fun k => ?_⟩
    have hc : ¬(j ≤ k ∧ k < j + 0 ∧ maskBit mask k = true) := by
      rintro ⟨h1, h2, _⟩; omega
    rw [show updSegs data mask (List.range' j 0) segs pos = (segs, pos) from rfl,
      if_neg hc]
  | n + 1, j, segs, pos, hjn => by
    rw [List.range'_succ]
    by_cases hb : maskBit mask j
    · have hlen : (segs.set j ((data.drop pos).take 4096)).length = segs.length :=
        List.length_set segs j _
      have ih := updSegs_range' data mask n (j + 1)
        (segs.set j ((data.drop pos).take 4096)) (pos + 4096) (by omega)
      refine ⟨?_, fun k => ?_⟩
      · rw [show updSegs data mask (j :: List.range' (j + 1) n) segs pos
            = updSegs data mask (List.range' (j + 1) n)
                (segs.set j ((data.drop pos).take 4096)) (pos + 4096) by
              simp [updSegs, hb]]
        rw [ih.1, List.countP_cons]
        simp [hb]
        ring
      · rw [show updSegs data mask (j :: List.range' (j + 1) n) segs pos
            = updSegs data mask (List.range' (j + 1) n)
                (segs.set j ((data.drop pos).take 4096)) (pos + 4096) by
              simp [updSegs, hb]]
        rw [ih.2 k]
        by_cases hk : k = j
        · subst hk
          have hni : ¬(k + 1 ≤ k ∧ k < k + 1 + n ∧ maskBit mask k) := by
            rintro ⟨h1, _, _⟩; omega

          have hyi : k ≤ k ∧ k < k + (n + 1) ∧ maskBit mask k :=
            ⟨le_refl k, by omega, hb⟩
          rw [if_neg hni, if_pos hyi]
          rw [List.get?_set_eq_of_lt _ (by omega)]
          simp
        · by_cases hc : j ≤ k ∧ k < j + (n + 1) ∧ maskBit mask k
          · have hc' : j + 1 ≤ k ∧ k < j + 1 + n ∧ maskBit mask k := by
              rcases hc with ⟨h1, h2, h3⟩
              exact ⟨by omega, by omega, h3⟩
            rw [if_pos hc', if_pos hc]
            have hkj : k - j = (k - (j + 1)) + 1 := by omega
            have hcp : (List.range' j (k - j)).countP (fun i => maskBit mask i)
                = (List.range' (j + 1) (k - (j + 1))).countP (fun i => maskBit mask i) + 1 := by
              rw [hkj, List.range'_succ, List.countP_cons]
              simp [hb]
            have harg : pos + 4096 * (List.range' j (k - j)).countP (fun i => maskBit mask i)
                = pos + 4096 + 4096 * (List.range' (j + 1) (k - (j + 1))).countP
                    (fun i => maskBit mask i) := by
              rw [hcp]; omega
            rw [harg]
          · have hc' : ¬(j + 1 ≤ k ∧ k < j + 1 + n ∧ maskBit mask k) := by
              rintro ⟨h1, h2, h3⟩
              exact hc ⟨by omega, by omega, h3⟩
            rw [if_neg hc', if_neg hc]
            exact List.get?_set_ne _ _ (fun h => hk h.symm)
    · have ih := updSegs_range' data mask n (j + 1) segs pos (by omega)
      refine ⟨?_, fun k => ?_⟩
      · rw [show updSegs data mask (j :: List.range' (j + 1) n) segs pos
            = updSegs data mask (List.range' (j + 1) n) segs pos by
              simp [updSegs, hb]]
        rw [ih.1, List.countP_cons]
        simp [hb]
      · rw [show updSegs data mask (j :: List.range' (j + 1) n) segs pos
            = updSegs data mask (List.range' (j + 1) n) segs pos by
              simp [updSegs, hb]]
        rw [ih.2 k]
        by_cases hk : k = j
        · subst hk
          have hni : ¬(k + 1 ≤ k ∧ k < k + 1 + n ∧ maskBit mask k) := by
            rintro ⟨h1, _, _⟩; omega
          have hnc : ¬(k ≤ k ∧ k < k + (n + 1) ∧ maskBit mask k) := by
            rintro ⟨_, _, h3⟩; exact hb h3
          rw [if_neg hni, if_neg hnc]
        · by_cases hc : j ≤ k ∧ k < j + (n + 1) ∧ maskBit mask k
          · have hc' : j + 1 ≤ k ∧ k < j + 1 + n ∧ maskBit mask k := by
              rcases hc with ⟨h1, h2, h3⟩
              exact ⟨by omega, by omega, h3⟩
            rw [if_pos hc', if_pos hc]
            have hkj : k - j = (k - (j + 1)) + 1 := by omega
            have harg : pos + 4096 * (List.range' j (k - j)).countP (fun i => maskBit mask i)
                = pos + 4096 * (List.range' (j + 1) (k - (j + 1))).countP
                    (fun i => maskBit mask i) := by
              rw [hkj, List.range'_succ, List.countP_cons]
              simp [hb]
            rw [harg]
          · have hc' : ¬(j + 1 ≤ k ∧ k < j + 1 + n ∧ maskBit mask k) := by
              rintro ⟨h1, h2, h3⟩
              exact hc ⟨by omega, by omega, h3⟩
            rw [if_neg hc', if_neg hc]

/-- When at least one full cluster remains in the stream, the full-mask
branch of `reconstructCluster` returns exactly the next `CLUSTER_SIZE`
bytes and advances the position by `CLUSTER_SIZE`. -/
theorem reconstructCluster_full (archive : List Nat) (pos : Nat)
    (cbuf : List Nat) (hbuf : cbuf.length = CLUSTER_SIZE)
    (havail : pos + CLUSTER_SIZE ≤ archive.length) :
    reconstructCluster archive pos cbuf 0xFFFF =
      ((archive.drop pos).take CLUSTER_SIZE, pos + CLUSTER_SIZE,
        (archive.drop pos).take CLUSTER_SIZE) := by
  have hlen : ((archive.drop pos).take CLUSTER_SIZE).length = CLUSTER_SIZE := by
    rw [List.length_take, List.length_drop]
    omega
  have hdrop : cbuf.drop ((archive.drop pos).take CLUSTER_SIZE).length = [] := by
    rw [hlen, ← hbuf, List.drop_length]
  simp [reconstructCluster, readN, hlen, hdrop]
  omega

/-- C1: a full-mask (0xFFFF) block-info with a non-zero device id hands the
write-back dispatcher exactly the next 65536 stream bytes and advances the
stream position by exactly 65536 bytes. -/
theorem full_mask_reads_next_cluster (archive : List Nat) (pos : Nat)
    (cbuf : List Nat) (tasks : List WriteTask) (info : Blockinfo)
    (hdev : info.dev_id ≠ 0) (hmask : info.mask = 0xFFFF)
    (hbuf : cbuf.length = CLUSTER_SIZE)
    (havail : pos + CLUSTER_SIZE ≤ archive.length) :
    processInfo archive (pos, cbuf, tasks) info =
      (pos + CLUSTER_SIZE, (archive.drop pos).take CLUSTER_SIZE,
        tasks ++ [⟨info.dev_id, info.cluster_num * CLUSTER_SIZE,
          (archive.drop pos).take CLUSTER_SIZE⟩]) := by
  simp [processInfo, hdev, hmask, reconstructCluster_full archive pos cbuf hbuf havail]

/-- Witness for `full_mask_reads_next_cluster` at a concrete archive. -/
theorem full_mask_reads_next_cluster_witness :
    processInfo (List.replicate 65536 7) (0, List.replicate 65536 0, [])
        ⟨0xFFFF, 3, 5⟩ =
      (0 + CLUSTER_SIZE, ((List.replicate 65536 7).drop 0).take CLUSTER_SIZE,
        [] ++ [⟨3, 5 * CLUSTER_SIZE,
          ((List.replicate 65536 7).drop 0).take CLUSTER_SIZE⟩]) :=
  full_mask_reads_next_cluster (List.replicate 65536 7) 0
    (List.replicate 65536 0) [] ⟨0xFFFF, 3, 5⟩ (by decide) rfl
    (by rw [List.length_replicate]; rfl) (by rw [List.length_replicate]; decide)

/-- C3: a zero-mask block-info with a non-zero device id consumes no stream
bytes, leaves the reused buffer untouched, and dispatches the shared
`ZERO_CLUSTER` constant, which is 65536 zero bytes. -/
theorem zero_mask_consumes_nothing (archive : List Nat) (pos : Nat)
    (cbuf : List Nat) (tasks : List WriteTask) (info : Blockinfo)
    (hdev : info.dev_id ≠ 0) (hmask : info.mask = 0) :
    processInfo archive (pos, cbuf, tasks) info =
      (pos, cbuf,
        tasks ++ [⟨info.dev_id, info.cluster_num * CLUSTER_SIZE, ZERO_CLUSTER⟩]) ∧
    ZERO_CLUSTER = List.replicate 65536 0 := by
  constructor
  · simp [processInfo, hdev, reconstructCluster, hmask]
  · rfl

/-- Witness for `zero_mask_consumes_nothing` at a concrete block-info. -/
theorem zero_mask_consumes_nothing_witness :
    processInfo [1, 2, 3] (0, List.replicate 65536 9, []) ⟨0, 2, 7⟩ =
      (0, List.replicate 65536 9,
        [] ++ [⟨2, 7 * CLUSTER_SIZE, ZERO_CLUSTER⟩]) ∧
    ZERO_CLUSTER = List.replicate 65536 0 :=
  zero_mask_consumes_nothing [1, 2, 3] 0 (List.replicate 65536 9) []
    ⟨0, 2, 7⟩ (by decide) rfl

/-- C2: a partial-mask block-info scatters the stream into the 65536-byte
cluster sub-block by sub-block: bit positions 0..15 are visited in
increasing order, each set bit `i` receives the next 4096 stream bytes at
cluster bytes `[i*4096, (i+1)*4096)`, clear bits stay all-zero, and the
stream advances by 4096 bytes per set bit. -/
theorem partial_mask_scatter (data : List Nat) (pos : Nat) (cbuf : List Nat)
    (mask : Nat) (h0 : mask ≠ 0) (hF : mask ≠ 0xFFFF)
    (havail : pos + 4096 * bitsBelow mask 16 ≤ data.length) :
    reconstructCluster data pos cbuf mask =
      (((List.range 16).map fun i =>
          if maskBit mask i then (data.drop (pos + 4096 * bitsBelow mask i)).take 4096
          else List.replicate 4096 0).flatten,
        pos + 4096 * bitsBelow mask 16, cbuf) := by
  have hrep : (List.replicate CLUSTER_SIZE 0 : List Nat)
      = (List.replicate 16 (List.replicate 4096 0)).flatten := by
    rw [List.flatten_replicate_replicate]
    norm_num [CLUSTER_SIZE]
  have hseg : ∀ s ∈ List.replicate 16 (List.replicate 4096 0), s.length = 4096 := by
    intro s hs
    rw [List.eq_of_mem_replicate hs, List.length_replicate]
  have hidx : ∀ i ∈ List.range' 0 16,
      i < (List.replicate 16 (List.replicate 4096 0)).length := by
    intro i hi
    rw [List.mem_range'_1] at hi
    rw [List.length_replicate]
    omega
  have hml : maskLoop data mask (List.range 16) (List.replicate CLUSTER_SIZE 0, pos)
      = ((updSegs data mask (List.range' 0 16)
            (List.replicate 16 (List.replicate 4096 0)) pos).1.flatten,
          (updSegs data mask (List.range' 0 16)
            (List.replicate 16 (List.replicate 4096 0)) pos).2) := by
    rw [hrep, List.range_eq_range']
    exact maskLoop_eq_updSegs data mask (List.range' 0 16)
      (List.replicate 16 (List.replicate 4096 0)) pos hseg hidx
      (by rw [show (List.range' 0 16).countP (fun j => maskBit mask j)
            = bitsBelow mask 16 by rw [bitsBelow, List.range_eq_range']]
          exact havail)
  have hchar := updSegs_range' data mask 16 0
    (List.replicate 16 (List.replicate 4096 0)) pos
    (by rw [List.length_replicate])
  have hc16 : (List.range' 0 16).countP (fun i => maskBit mask i)
      = bitsBelow mask 16 := by
    rw [bitsBelow, List.range_eq_range']
  have hsegs : (updSegs data mask (List.range' 0 16)
        (List.replicate 16 (List.replicate 4096 0)) pos).1
      = (List.range 16).map fun i =>
          if maskBit mask i then (data.drop (pos + 4096 * bitsBelow mask i)).take 4096
          else List.replicate 4096 0 := by
    apply List.ext_get?
    intro k
    rw [hchar.2 k]
    by_cases hk : k < 16
    · rw [List.get?_map, List.get?_range hk]
      by_cases hbk : maskBit mask k
      · rw [if_pos ⟨Nat.zero_le k, by omega, hbk⟩]
        have hck : (List.range' 0 (k - 0)).countP (fun i => maskBit mask i)
            = bitsBelow mask k := by
          rw [bitsBelow, List.range_eq_range', Nat.sub_zero]
        rw [hck]
        simp only [Option.map_some', hbk, if_true]
      · rw [if_neg (by rintro ⟨_, _, h3⟩; exact hbk h3)]
        have hg : (List.replicate 16 (List.replicate 4096 0)).get? k
            = some (List.replicate 4096 0) := by
          rw [List.get?_eq_getElem?, List.getElem?_replicate, if_pos hk]
        rw [hg]
        simp only [Option.map_some', hbk, Bool.false_eq_true, if_false]
    · rw [if_neg (by rintro ⟨_, h2, _⟩; omega)]
      rw [List.get?_len_le (by rw [List.length_replicate]; omega),
        List.get?_map, List.get?_len_le (by rw [List.length_range]; omega)]
      rfl
  simp only [reconstructCluster, if_neg hF, if_neg h0]
  rw [hml, hsegs, hchar.1, hc16]

/-- Witness for `partial_mask_scatter` at the mask `0b0000000000000011` of
the specification: bytes `[0,4096)` and `[4096,8192)` come from the two
4096-byte reads and bytes `[8192,65536)` stay zero. -/
theorem partial_mask_scatter_witness :
    reconstructCluster (List.replicate 8192 9) 0 [] 3 =
      (((List.range 16).map fun i =>
          if maskBit 3 i then
            ((List.replicate 8192 9).drop (0 + 4096 * bitsBelow 3 i)).take 4096
          else List.replicate 4096 0).flatten,
        0 + 4096 * bitsBelow 3 16, []) :=
  partial_mask_scatter (List.replicate 8192 9) 0 [] 3 (by decide) (by decide)
    (by rw [List.length_replicate]; decide)

/-- Two file writes over disjoint byte ranges commute. -/
theorem writeAt_comm (f : Nat → Nat) (p₁ p₂ : Nat) (d₁ d₂ : List Nat)
    (hdisj : p₁ + d₁.length ≤ p₂ ∨ p₂ + d₂.length ≤ p₁) :
    writeAt (writeAt f p₁ d₁) p₂ d₂ = writeAt (writeAt f p₂ d₂) p₁ d₁ := by
  funext off
  unfold writeAt
  by_cases h1 : p₁ ≤ off ∧ off < p₁ + d₁.length
  · have h2 : ¬(p₂ ≤ off ∧ off < p₂ + d₂.length) := by omega
    simp only [if_pos h1, if_neg h2]
  · by_cases h2 : p₂ ≤ off ∧ off < p₂ + d₂.length
    · simp only [if_pos h2, if_neg h1]
    · simp only [if_neg h1, if_neg h2]

/-- `applyTask` written out as the state transformer it is. -/
theorem applyTask_eq (opened : Nat → Bool) (st : Nat → Nat → Nat) (t : WriteTask) :
    applyTask opened st t =
      if opened t.dev_id then
        (fun d => if d = t.dev_id then writeAt (st d) t.pos t.data else st d)
      else st := by
  unfold applyTask write_cluster
  by_cases h : opened t.dev_id
  · simp only [h, if_true]
  · simp only [h, Bool.false_eq_true, if_false]

/-- Pointwise description of one worker task. -/
theorem applyTask_apply (opened : Nat → Bool) (st : Nat → Nat → Nat)
    (t : WriteTask) (d : Nat) :
    applyTask opened st t d =
      if opened t.dev_id = true ∧ d = t.dev_id then writeAt (st d) t.pos t.data
      else st d := by
  rw [applyTask_eq]
  by_cases ho : opened t.dev_id
  · by_cases hd : d = t.dev_id
    · simp only [ho, hd, if_true, and_self]
    · simp only [ho, if_true, if_neg hd, true_and]
  · simp only [ho, Bool.false_eq_true, if_false, false_and]

/-- Worker tasks for cluster-aligned writes of at most one cluster, with
distinct (device id, offset) pairs, commute. -/
theorem applyTask_comm (opened : Nat → Bool) (st : Nat → Nat → Nat)
    (a b : WriteTask)
    (hla : a.data.length ≤ 65536) (hlb : b.data.length ≤ 65536)
    (hma : a.pos % 65536 = 0) (hmb : b.pos % 65536 = 0)
    (hne : ¬(a.dev_id = b.dev_id ∧ a.pos = b.pos)) :
    applyTask opened (applyTask opened st a) b
      = applyTask opened (applyTask opened st b) a := by
  funext d
  rw [applyTask_apply, applyTask_apply, applyTask_apply, applyTask_apply]
  by_cases hca : opened a.dev_id = true ∧ d = a.dev_id
  · by_cases hcb : opened b.dev_id = true ∧ d = b.dev_id
    · simp only [if_pos hca, if_pos hcb]
      have hp : a.pos ≠ b.pos := fun hp => hne ⟨by rw [← hca.2, ← hcb.2], hp⟩
      exact writeAt_comm (st d) a.pos b.pos a.data b.data (by omega)
    · simp only [if_pos hca, if_neg hcb]
  · by_cases hcb : opened b.dev_id = true ∧ d = b.dev_id
    · simp only [if_neg hca, if_pos hcb]
    · simp only [if_neg hca, if_neg hcb]

/-- C4: (a) the task submitted for a block-info targets byte offset
`cluster_num * CLUSTER_SIZE` of its device, and (b) running any batch of
cluster-aligned write tasks with pairwise distinct (device id, offset)
pairs in any order produces byte-identical device files: the worker pool's
serialization order is immaterial. -/
theorem dispatch_offset_and_order_independent (archive : List Nat) (pos : Nat)
    (cbuf : List Nat) (tasks : List WriteTask) (info : Blockinfo)
    (hdev : info.dev_id ≠ 0)
    (opened : Nat → Bool) (st : Nat → Nat → Nat) (l₁ l₂ : List WriteTask)
    (hlen : ∀ t ∈ l₁, t.data.length ≤ 65536)
    (hmul : ∀ t ∈ l₁, t.pos % 65536 = 0)
    (hdist : l₁.Pairwise fun a b => ¬(a.dev_id = b.dev_id ∧ a.pos = b.pos))
    (hperm : l₁.Perm l₂) :
    (processInfo archive (pos, cbuf, tasks) info).2.2
        = tasks ++ [⟨info.dev_id, info.cluster_num * CLUSTER_SIZE,
            (reconstructCluster archive pos cbuf info.mask).1⟩] ∧
    runTasks opened st l₁ = runTasks opened st l₂ := by
  constructor
  · simp only [processInfo, if_neg hdev]
  · unfold runTasks
    refine List.Perm.foldl_eq' hperm ?_ st
    intro x hx y hy z
    by_cases hxy : x = y
    · subst hxy; rfl
    · have hSym : Symmetric fun a b : WriteTask =>
          ¬(a.dev_id = b.dev_id ∧ a.pos = b.pos) := by
        rintro a b h ⟨h1, h2⟩
        exact h ⟨h1.symm, h2.symm⟩
      exact applyTask_comm opened z x y (hlen x hx) (hlen y hy)
        (hmul x hx) (hmul y hy) (List.Pairwise.forall hSym hdist hx hy hxy)

/-- Witness for `dispatch_offset_and_order_independent`: two tasks for
adjacent clusters of one device, executed in both orders. -/
theorem dispatch_offset_and_order_independent_witness :
    (processInfo [] (0, [], []) ⟨0, 4, 1⟩).2.2
        = [] ++ [⟨4, 1 * CLUSTER_SIZE, (reconstructCluster [] 0 [] 0).1⟩] ∧
    runTasks (fun _ => true) (fun _ _ => 0)
        ([⟨1, 0, [7]⟩, ⟨1, 65536, [9]⟩] : List WriteTask)
      = runTasks (fun _ => true) (fun _ _ => 0)
        ([⟨1, 65536, [9]⟩, ⟨1, 0, [7]⟩] : List WriteTask) :=
  dispatch_offset_and_order_independent [] 0 [] [] ⟨0, 4, 1⟩ (by decide)
    (fun _ => true) (fun _ _ => 0)
    ([⟨1, 0, [7]⟩, ⟨1, 65536, [9]⟩] : List WriteTask)
    ([⟨1, 65536, [9]⟩, ⟨1, 0, [7]⟩] : List WriteTask)
    (by decide) (by decide) (by decide)
    (List.Perm.swap (⟨1, 65536, [9]⟩ : WriteTask) ⟨1, 0, [7]⟩ [])

/-- When the fixed leading fields fit in the file, extent parsing succeeds
on a correct magic and the parsed UUID is the 16-byte field at offset
`pos + 8`. -/
theorem parseExtentHeader_ok (md5 : List Nat → List Nat) (file : List Nat)
    (skip_hash : Bool) (pos : Nat)
    (hmagic : (file.drop pos).take 4 = vmaeMagic)
    (hlen : pos + 40 ≤ file.length) :
    ∃ ext p', parseExtentHeader md5 file skip_hash pos = Except.ok (ext, p') ∧
      ext.uuid = (file.drop (pos + 8)).take 16 := by
  have e0 : readN file pos 4 = (vmaeMagic, pos + 4) := by
    simp only [readN, hmagic]
    rfl
  have l1 : ((file.drop (pos + 4 + 2)).take 2).length = 2 := by
    rw [List.length_take, List.length_drop]
    omega
  simp only [parseExtentHeader, e0, if_true]
  refine ⟨_, _, rfl, ?_⟩
  simp only [readN, l1]

/-- Every `parseBlockinfos` call returns exactly as many records as asked. -/
theorem parseBlockinfos_length (file : List Nat) :
    ∀ (n pos : Nat), (parseBlockinfos file n pos).1.length = n
  | 0, _ => rfl
  | n + 1, pos => by
    simp only [parseBlockinfos, List.length_cons]
    rw [parseBlockinfos_length file n]

/-- C5: an extent whose UUID differs from the archive header's UUID makes
the run fail fatally at the UUID comparison, before any block-info of that
extent is visited: no write task is produced. -/
theorem foreign_uuid_extent_is_fatal (md5 : List Nat → List Nat)
    (archive : List Nat) (header_uuid : List Nat) (skip_hash : Bool)
    (pos : Nat) (cbuf : List Nat) (tasks : List WriteTask)
    (hmagic : (archive.drop pos).take 4 = vmaeMagic)
    (hlen : pos + 40 ≤ archive.length)
    (huuid : header_uuid ≠ (archive.drop (pos + 8)).take 16) :
    processExtent md5 archive header_uuid skip_hash (pos, cbuf, tasks)
      = Except.error ExtractError.identityMismatch := by
  obtain ⟨ext, p', hok, hu⟩ := parseExtentHeader_ok md5 archive skip_hash pos hmagic hlen
  simp only [processExtent, hok]
  rw [if_neg (by rw [hu]; exact huuid)]

/-- Witness for `foreign_uuid_extent_is_fatal`: a 40-byte extent prefix
whose UUID field is all zero against an all-ones header UUID. -/
theorem foreign_uuid_extent_is_fatal_witness :
    processExtent (fun _ => []) (vmaeMagic ++ List.replicate 36 0)
        (List.replicate 16 1) false (0, [], [])
      = Except.error ExtractError.identityMismatch :=
  foreign_uuid_extent_is_fatal (fun _ => []) (vmaeMagic ++ List.replicate 36 0)
    (List.replicate 16 1) false 0 [] [] (by decide) (by decide) (by decide)

/-- C9: extent parsing always yields exactly 59 block-info records, no
matter what the declared 2-byte block count contains (it is stored in
`block_count` and never read again), and a block-info whose device id is 0
leaves the whole state untouched: no stream byte is consumed and no write
is scheduled. -/
theorem always_59_blockinfos_and_dev0_skipped (md5 : List Nat → List Nat)
    (file archive : List Nat) (skip_hash : Bool) (pos : Nat)
    (st : Nat × List Nat × List WriteTask) (info : Blockinfo)
    (hmagic : (file.drop pos).take 4 = vmaeMagic)
    (hdev0 : info.dev_id = 0) :
    (parseExtentHeader md5 file skip_hash pos).map (fun r => r.1.blockinfo.length)
        = Except.ok 59 ∧
    processInfo archive st info = st := by
  constructor
  · simp only [parseExtentHeader, readN]
    rw [if_pos hmagic]
    simp only [Except.map]
    rw [parseBlockinfos_length]
  · simp only [processInfo, hdev0, if_pos]

/-- Witness for `always_59_blockinfos_and_dev0_skipped`: the magic alone is
enough for the record count, and a concrete dev-0 record is skipped. -/
theorem always_59_blockinfos_and_dev0_skipped_witness :
    (parseExtentHeader (fun _ => []) vmaeMagic false 0).map
        (fun r => r.1.blockinfo.length) = Except.ok 59 ∧
    processInfo [] (0, [], []) ⟨5, 0, 9⟩ = (0, [], []) :=
  always_59_blockinfos_and_dev0_skipped (fun _ => []) vmaeMagic [] false 0
    (0, [], []) ⟨5, 0, 9⟩ (by decide) rfl

/-- C10: a block-info with a non-zero device id whose descriptor declared
size 0 (so no output file and no lock were created) still consumes its
payload from the stream and submits a task, but the task fails inside the
worker with the lock lookup's `KeyError`; the future is never inspected,
so the batch result is exactly as if the task had never existed and the
cluster is silently dropped. -/
theorem unopened_device_write_silently_dropped (archive : List Nat)
    (pos : Nat) (cbuf : List Nat) (tasks : List WriteTask) (info : Blockinfo)
    (devs : List VmaDeviceInfoHeader) (st : Nat → Nat → Nat)
    (l : List WriteTask) (t : WriteTask)
    (hdev : info.dev_id ≠ 0) (hmask : info.mask = 0xFFFF)
    (hbuf : cbuf.length = CLUSTER_SIZE)
    (havail : pos + CLUSTER_SIZE ≤ archive.length)
    (hunopened : openedDevices devs info.dev_id = false)
    (ht : t.dev_id = info.dev_id) :
    processInfo archive (pos, cbuf, tasks) info =
      (pos + CLUSTER_SIZE, (archive.drop pos).take CLUSTER_SIZE,
        tasks ++ [⟨info.dev_id, info.cluster_num * CLUSTER_SIZE,
          (archive.drop pos).take CLUSTER_SIZE⟩]) ∧
    write_cluster (openedDevices devs) st t = Except.error ExtractError.keyError ∧
    runTasks (openedDevices devs) st (l ++ [t]) = runTasks (openedDevices devs) st l := by
  have hwc : ∀ s : Nat → Nat → Nat, write_cluster (openedDevices devs) s t
      = Except.error ExtractError.keyError := by
    intro s
    simp only [write_cluster, ht, hunopened, Bool.false_eq_true, if_false]
  refine ⟨?_, hwc st, ?_⟩
  · simp [processInfo, hdev, hmask, reconstructCluster_full archive pos cbuf hbuf havail]
  · rw [runTasks, List.foldl_append]
    rw [show List.foldl (applyTask (openedDevices devs)) st l
        = runTasks (openedDevices devs) st l from rfl]
    simp only [List.foldl_cons, List.foldl_nil, applyTask, hwc]

/-- Witness for `unopened_device_write_silently_dropped`: device 3 exists
in the descriptor table with size 0. -/
theorem unopened_device_write_silently_dropped_witness :
    processInfo (List.replicate 65536 1) (0, List.replicate 65536 0, [])
        ⟨0xFFFF, 3, 2⟩ =
      (0 + CLUSTER_SIZE, ((List.replicate 65536 1).drop 0).take CLUSTER_SIZE,
        [] ++ [⟨3, 2 * CLUSTER_SIZE,
          ((List.replicate 65536 1).drop 0).take CLUSTER_SIZE⟩]) ∧
    write_cluster (openedDevices [⟨0, 1⟩, ⟨0, 1⟩, ⟨0, 1⟩, ⟨0, 0⟩])
        (fun _ _ => 0) ⟨3, 131072, [1]⟩ = Except.error ExtractError.keyError ∧
    runTasks (openedDevices [⟨0, 1⟩, ⟨0, 1⟩, ⟨0, 1⟩, ⟨0, 0⟩]) (fun _ _ => 0)
        ([] ++ [⟨3, 131072, [1]⟩])
      = runTasks (openedDevices [⟨0, 1⟩, ⟨0, 1⟩, ⟨0, 1⟩, ⟨0, 0⟩])
        (fun _ _ => 0) [] :=
  unopened_device_write_silently_dropped (List.replicate 65536 1) 0
    (List.replicate 65536 0) [] ⟨0xFFFF, 3, 2⟩
    [⟨0, 1⟩, ⟨0, 1⟩, ⟨0, 1⟩, ⟨0, 0⟩] (fun _ _ => 0) [] ⟨3, 131072, [1]⟩
    (by decide) rfl (by rw [List.length_replicate]; rfl)
    (by rw [List.length_replicate]; decide) (by decide) rfl

/-- The partial-mask loop skips every index whose mask bit is clear. -/
theorem maskLoop_no_bits (data : List Nat) (mask : Nat) :
    ∀ (l : List Nat) (st : List Nat × Nat),
      (∀ i ∈ l, maskBit mask i = false) →
      maskLoop data mask l st = st
  | [], _, _ => rfl
  | i :: rest, (buf, pos), h => by
    have hi : maskBit mask i = false := h i (List.mem_cons_self i rest)
    simp only [maskLoop, hi, Bool.false_eq_true, if_false]
    exact maskLoop_no_bits data mask rest (buf, pos)
      (fun j hj => h j (List.mem_cons_of_mem i hj))

/-- C7 (divergence witness): a truncated archive is not detected.  With
mask 1 and only five stream bytes left, the slice assignment shrinks the
cluster to 61445 bytes instead of raising; with a full mask and only two
bytes left, `readinto` leaves the previous contents of the reused buffer
in the remaining 65534 bytes.  No error value exists on these paths. -/
theorem truncated_stream_silently_accepted :
    ((reconstructCluster [1, 2, 3, 4, 5] 0 (List.replicate 65536 0) 1).1).length
        = 61445 ∧
    (reconstructCluster [9, 9] 0 (List.replicate 65536 7) 0xFFFF).1
      = [9, 9] ++ List.replicate 65534 7 := by
  constructor
  · have h1 : reconstructCluster [1, 2, 3, 4, 5] 0 (List.replicate 65536 0) 1
        = ((List.replicate 65536 0).take 0 ++ [1, 2, 3, 4, 5]
            ++ (List.replicate 65536 0).drop 4096, 5,
           List.replicate 65536 0) := by
      simp only [reconstructCluster, show (1 : Nat) ≠ 0xFFFF by decide,
        show (1 : Nat) ≠ 0 by decide, if_neg, if_false,
        show List.range 16
          = 0 :: [1, 2, 3, 4, 5, 6, 7, 8, 9, 10, 11, 12, 13, 14, 15] by decide]
      rw [maskLoop]
      simp only [show maskBit 1 0 = true from rfl, if_true, readN]
      rw [List.drop_zero, List.take_all_of_le (by norm_num :
        ([1, 2, 3, 4, 5] : List Nat).length ≤ 4096)]
      rw [maskLoop_no_bits _ _ _ _ (by decide)]
      norm_num [CLUSTER_SIZE]
    rw [h1, List.take_zero, List.nil_append, List.length_append,
      List.length_drop, List.length_replicate]
    norm_num
  · simp only [reconstructCluster, readN, if_true]
    norm_num [CLUSTER_SIZE]

/-- C8 (as stated) is false on the code: a blob record whose 2-byte length
makes its payload extend past `blob_buffer_offset + blob_buffer_size` is
decoded without any error.  Concretely, with the region ending at offset 4,
the record at offset 0 declares length 3 and its payload `[9, 9, 9]`
reaches offset 5 — decoding returns it and simply stops afterwards. -/
theorem blob_overrun_not_fatal_counterexample :
    parseBlobLoop [3, 0, 9, 9, 9, 8, 8] 0 4 10 0
      = ([(0, ⟨3, [9, 9, 9]⟩)], 5) := by
  decide

/-- C8 (amended): a record starting before the region end whose declared
length overruns the region boundary is read in full anyway — its payload
is the next `size` bytes of the file, past the boundary — and the loop
carries on from the record's end with no error. -/
theorem blob_overrun_reads_past_region (file : List Nat)
    (blobOffset endPos fuel pos : Nat)
    (hpos : pos < endPos)
    (hlen : pos + 2 ≤ file.length)
    (hover : endPos < pos + 2 + fromBytesLE ((file.drop pos).take 2)) :
    parseBlobLoop file blobOffset endPos (fuel + 1) pos
      = ((pos - blobOffset,
            ⟨fromBytesLE ((file.drop pos).take 2),
              (file.drop (pos + 2)).take (fromBytesLE ((file.drop pos).take 2))⟩)
          :: (parseBlobLoop file blobOffset endPos fuel (parseBlob file pos).2).1,
         (parseBlobLoop file blobOffset endPos fuel (parseBlob file pos).2).2) := by
  have hl2 : ((file.drop pos).take 2).length = 2 := by
    rw [List.length_take, List.length_drop]
    omega
  simp only [parseBlobLoop, if_pos hpos, parseBlob, readN, hl2]

/-- Witness for `blob_overrun_reads_past_region` on the counterexample's
region. -/
theorem blob_overrun_reads_past_region_witness :
    parseBlobLoop [3, 0, 9, 9, 9, 8, 8] 0 4 (9 + 1) 0
      = ((0 - 0,
            ⟨fromBytesLE (([3, 0, 9, 9, 9, 8, 8].drop 0).take 2),
              ([3, 0, 9, 9, 9, 8, 8].drop (0 + 2)).take
                (fromBytesLE (([3, 0, 9, 9, 9, 8, 8].drop 0).take 2))⟩)
          :: (parseBlobLoop [3, 0, 9, 9, 9, 8, 8] 0 4 9
                (parseBlob [3, 0, 9, 9, 9, 8, 8] 0).2).1,
         (parseBlobLoop [3, 0, 9, 9, 9, 8, 8] 0 4 9
            (parseBlob [3, 0, 9, 9, 9, 8, 8] 0).2).2) :=
  blob_overrun_reads_past_region [3, 0, 9, 9, 9, 8, 8] 0 4 9 0
    (by decide) (by decide) (by decide)

/-- The byte string `VmaHeader._gen_md5sum` digests is exactly the first
`header_size` file bytes with bytes `[32,48)` (the checksum field, which
starts after the 4-byte magic, 4-byte version, 16-byte UUID and 8-byte
ctime) replaced by zeros. -/
theorem headerGenMd5_input_eq_spec (file : List Nat) (header_size : Nat)
    (h48 : 48 ≤ header_size) (hhs : header_size ≤ file.length) :
    (file.take header_size).take 32 ++ List.replicate 16 0
        ++ (file.take header_size).drop 48
      = specZeroedHeader file header_size := by
  have hd : (file.take header_size).length = header_size := by
    rw [List.length_take]
    exact Nat.min_eq_left hhs
  have h32 : ((file.take header_size).take 32).length = 32 := by
    rw [List.length_take, hd]
    exact Nat.min_eq_left (by omega)
  apply List.ext_get?
  intro k
  rw [List.append_assoc]
  by_cases hk : k < header_size
  · have hrange : (List.range header_size).get? k = some k := List.get?_range hk
    rw [specZeroedHeader, List.get?_map, hrange]
    by_cases hk32 : k < 32
    · rw [List.get?_append (by rw [h32]; exact hk32),
        List.get?_take hk32, List.get?_take hk,
        List.get?_eq_get (by omega : k < file.length)]
      have : ¬(32 ≤ k ∧ k < 48) := by omega
      simp only [Option.map_some', this, if_false]
      rw [List.getD_eq_getElem?_getD, List.getElem?_eq_getElem
        (by omega : k < file.length)]
      rfl
    · rw [List.get?_append_right (by rw [h32]; omega)]
      by_cases hk48 : k < 48
      · rw [List.get?_append (by rw [List.length_replicate]; omega)]
        rw [List.get?_eq_getElem?, List.getElem?_replicate, if_pos (by rw [h32]; omega)]
        have : 32 ≤ k ∧ k < 48 := by omega
        simp only [Option.map_some', this, if_pos, and_self]
      · rw [List.get?_append_right (by rw [List.length_replicate]; rw [h32]; omega)]
        rw [List.get?_drop]
        rw [show 48 + (k - ((file.take header_size).take 32).length
            - (List.replicate 16 0 : List Nat).length) = k by
          rw [h32, List.length_replicate]; omega]
        rw [List.get?_take hk, List.get?_eq_get (by omega : k < file.length)]
        have : ¬(32 ≤ k ∧ k < 48) := by omega
        simp only [Option.map_some', this, if_false]
        rw [List.getD_eq_getElem?_getD, List.getElem?_eq_getElem
          (by omega : k < file.length)]
        rfl
  · have hlenA : ((file.take header_size).take 32
        ++ (List.replicate 16 0 ++ (file.take header_size).drop 48)).length
          = header_size := by
      rw [List.length_append, List.length_append, List.length_replicate,
        List.length_drop, h32, hd]
      omega
    rw [List.get?_len_le (by rw [hlenA]; omega),
      specZeroedHeader, List.get?_map,
      List.get?_len_le (by rw [List.length_range]; omega)]
    rfl

/-- C6: with validation enabled the header is accepted exactly when the
digest of the first `header_size` bytes with the checksum field `[32,48)`
zeroed equals the declared checksum, a mismatch being the fatal outcome;
with validation disabled no digest is computed — the outcome is `ok` no
matter what the declared checksum is and does not depend on the digest
function at all. -/
theorem checksum_checked_or_skipped (md5 md5Alt : List Nat → List Nat)
    (file : List Nat) (header_size : Nat) (md5sum : List Nat)
    (h48 : 48 ≤ header_size) (hhs : header_size ≤ file.length) :
    headerHashCheck md5 file header_size md5sum false
        = (if md5sum = md5 (specZeroedHeader file header_size) then Except.ok ()
           else Except.error ExtractError.integrityError) ∧
    headerHashCheck md5 file header_size md5sum true = Except.ok () ∧
    headerHashCheck md5 file header_size md5sum true
        = headerHashCheck md5Alt file header_size md5sum true := by
  refine ⟨?_, rfl, rfl⟩
  rw [show headerHashCheck md5 file header_size md5sum false
      = (if md5sum = headerGenMd5 md5 file header_size then Except.ok ()
         else Except.error ExtractError.integrityError) from rfl]
  rw [show headerGenMd5 md5 file header_size
      = md5 ((file.take header_size).take 32 ++ List.replicate 16 0
          ++ (file.take header_size).drop 48) from rfl]
  rw [headerGenMd5_input_eq_spec file header_size h48 hhs]

/-- Witness for `checksum_checked_or_skipped` on a concrete 64-byte file
with a 48-byte header region. -/
theorem checksum_checked_or_skipped_witness :
    headerHashCheck (fun l => [l.length]) (List.replicate 64 5) 48
        [2] false
        = (if [2] = (fun l : List Nat => [l.length])
              (specZeroedHeader (List.replicate 64 5) 48) then Except.ok ()
           else Except.error ExtractError.integrityError) ∧
    headerHashCheck (fun l => [l.length]) (List.replicate 64 5) 48 [2] true
        = Except.ok () ∧
    headerHashCheck (fun l => [l.length]) (List.replicate 64 5) 48 [2] true
        = headerHashCheck (fun _ => []) (List.replicate 64 5) 48 [2] true :=
  checksum_checked_or_skipped (fun l => [l.length]) (fun _ => [])
    (List.replicate 64 5) 48 [2] (by decide)
    (by rw [List.length_replicate]; decide)
